import Mathlib

/-!
Verification of the realtime audio session bridge of the LiveCritic
component (src/unnamed/part_000, lines 56-244) and of the PCM audio
utilities it uses.  The component is embedded shallowly: its React refs
and state hooks become fields of a record, its event handlers become
pure state-transition functions, and the browser devices it touches are
tracked by an explicit resource ledger.  Time values (the audio clock,
buffer durations, the nextStartTime cursor) are rationals.
-/

/-- Connection status of the bridge, the four values of the status
state hook of LiveCritic (line 63). -/
inductive Status where
  | idle
  | connecting
  | live
  | error
deriving DecidableEq

/-- The mutable state owned by one LiveCritic instance: the four React
state hooks (lines 62-65) and the five refs (lines 67-71).  Device
handles are identified by natural numbers; an Option field is the
nullable ref holding such a handle. -/
structure CriticState where
  active : Bool
  status : Status
  volume : ℚ
  isSpeaking : Bool
  audioContext : Option ℕ
  sessionPromise : Option ℕ
  inputSource : Option ℕ
  processor : Option ℕ
  nextStartTime : ℚ
deriving DecidableEq

/-- The release operations the browser exposes for the resources the
session touches.  disconnect (lines 79-96) can emit the first three;
the last three exist in the platform API (stopping media-stream tracks,
closing the 16 kHz input context, closing the remote session) and are
listed so that their absence from a trace is expressible. -/
inductive ReleaseOp where
  | procDisconnect
  | sourceDisconnect
  | outputCtxClose
  | inputCtxClose
  | micTrackStop
  | sessionClose
deriving DecidableEq, BEq

/-- The disconnect handler (lines 79-96): for each of the three refs
processorRef, inputSourceRef, audioContextRef that is non-null it calls
the release operation and nulls the ref, then resets active, status,
isSpeaking and volume.  Returns the new state together with the list of
release operations performed, in program order. -/
def disconnect (s : CriticState) : CriticState × List ReleaseOp :=
  let ops :=
    (match s.processor with
     | some _ => [ReleaseOp.procDisconnect]
     | none => []) ++
    (match s.inputSource with
     | some _ => [ReleaseOp.sourceDisconnect]
     | none => []) ++
    (match s.audioContext with
     | some _ => [ReleaseOp.outputCtxClose]
     | none => [])
  ({ s with processor := none, inputSource := none, audioContext := none,
            active := false, status := Status.idle,
            isSpeaking := false, volume := 0 }, ops)

/-- Ledger of the three operating-system level devices a session can
hold open: the 24 kHz output AudioContext (line 102), the microphone
MediaStream (line 106) and the 16 kHz input AudioContext (line 112). -/
structure Resources where
  outputCtxOpen : Bool
  micStreamOpen : Bool
  inputCtxOpen : Bool
deriving DecidableEq

/-- Effect of one release operation on the device ledger.  Detaching a
node (procDisconnect, sourceDisconnect) closes no device; only closing
a context or stopping the stream tracks does. -/
def applyRelease (r : Resources) : ReleaseOp → Resources
  | ReleaseOp.outputCtxClose => { r with outputCtxOpen := false }
  | ReleaseOp.inputCtxClose => { r with inputCtxOpen := false }
  | ReleaseOp.micTrackStop => { r with micStreamOpen := false }
  | _ => r

/-- Fold a list of release operations over the device ledger. -/
def applyReleases (r : Resources) (ops : List ReleaseOp) : Resources :=
  ops.foldl applyRelease r

/-- Outcome of the three fallible device-acquisition steps of
startSession: constructing the output AudioContext (line 102), the
getUserMedia call (line 106) and constructing the 16 kHz input
AudioContext (line 112).  A false field makes that step throw. -/
structure DeviceWorld where
  outputCtxOk : Bool
  micOk : Bool
  inputCtxOk : Bool

/-- The component state before any session: idle, inactive, every ref
null, cursor at zero. -/
def initialState : CriticState :=
  { active := false, status := Status.idle, volume := 0, isSpeaking := false,
    audioContext := none, sessionPromise := none, inputSource := none,
    processor := none, nextStartTime := 0 }

/-- The startSession handler (lines 98-181) up to its return: sets
status to connecting, then inside the try block acquires the output
context (storing it in audioContextRef), the microphone stream and the
input context, creates the source and processor nodes and stores the
session promise.  The catch block (lines 177-180) only logs and sets
status to error: it releases nothing, so whatever was acquired before
the throwing step stays open in the returned ledger.  The stream and
the input context live only in local variables, never in refs. -/
def startSession (w : DeviceWorld) (s : CriticState) : CriticState × Resources :=
  let s1 := { s with status := Status.connecting }
  if w.outputCtxOk then
    let s2 := { s1 with audioContext := some 10 }
    if w.micOk then
      if w.inputCtxOk then
        ({ s2 with inputSource := some 11, processor := some 12,
                   sessionPromise := some 13 },
         { outputCtxOpen := true, micStreamOpen := true, inputCtxOpen := true })
      else
        ({ s2 with status := Status.error },
         { outputCtxOpen := true, micStreamOpen := true, inputCtxOpen := false })
    else
      ({ s2 with status := Status.error },
       { outputCtxOpen := true, micStreamOpen := false, inputCtxOpen := false })
  else
    ({ s1 with status := Status.error },
     { outputCtxOpen := false, micStreamOpen := false, inputCtxOpen := false })

/-- The onopen callback passed to connectLiveSession (lines 117-120):
sets status to live and active to true. -/
def onOpen (s : CriticState) : CriticState :=
  { s with status := Status.live, active := true }

/-- Result of the awaited decodeAudioData call inside the onMessage
handler (lines 129-134): either a decoded buffer, of which only the
duration matters to scheduling, or a decode failure caught at
line 150. -/
inductive DecodeResult where
  | ok (duration : ℚ)
  | err

/-- First, synchronous half of the onMessage audio handler
(lines 121-127), everything before the await of decodeAudioData: bail
out if audioContextRef is null (line 122), otherwise capture the
context into a local (line 125) and clamp the cursor to
max(nextStartTime, currentTime) (line 126).  Returns the updated state
and the captured context handle, or none if the handler bailed out. -/
def onMessageEntry (s : CriticState) (now : ℚ) : CriticState × Option ℕ :=
  match s.audioContext with
  | none => (s, none)
  | some ctx =>
      ({ s with nextStartTime := max s.nextStartTime now }, some ctx)

/-- Second half of the onMessage audio handler, resumed after the
decodeAudioData await (lines 136-152).  On a successful decode it
creates a buffer source on the context captured before the await,
starts it at the current cursor (line 139), advances the cursor by the
buffer duration (line 140) and raises the speaking indicator
(lines 143-144); there is no re-check of audioContextRef here.  On a
decode failure the catch block (lines 150-152) only logs.  The second
component is the scheduled playback, as (context handle, start time),
if any. -/
def onMessageResume (ctx : ℕ) (res : DecodeResult) (s : CriticState) :
    CriticState × Option (ℕ × ℚ) :=
  match res with
  | DecodeResult.err => (s, none)
  | DecodeResult.ok d =>
      ({ s with nextStartTime := s.nextStartTime + d,
                isSpeaking := true, volume := 4/5 },
       some (ctx, s.nextStartTime))

/-- The whole onMessage audio handler (lines 121-153) run without any
interleaving between its two halves: the entry half followed, if it
did not bail out, by the resume half. -/
def onMessage (s : CriticState) (now : ℚ) (res : DecodeResult) :
    CriticState × Option (ℕ × ℚ) :=
  match onMessageEntry s now with
  | (s1, none) => (s1, none)
  | (s1, some ctx) => onMessageResume ctx res s1

/-- One row of a playback schedule trace: the audio-clock reading and
buffer duration of one inbound blob, the start time the handler chose
for it, and the cursor value after the handler ran. -/
structure SchedEntry where
  now : ℚ
  dur : ℚ
  start : ℚ
  cursorAfter : ℚ
deriving DecidableEq

/-- Run the onMessage handler over a sequence of successfully decoding
inbound blobs, each given as (audio-clock reading at arrival, buffer
duration), collecting the trace of scheduled entries. -/
def runSchedule (s : CriticState) :
    List (ℚ × ℚ) → CriticState × List SchedEntry
  | [] => (s, [])
  | (n, d) :: evs =>
      let r := onMessage s n (DecodeResult.ok d)
      let rest := runSchedule r.1 evs
      match r.2 with
      | some (_, t) =>
          (rest.1, { now := n, dur := d, start := t,
                     cursorAfter := r.1.nextStartTime } :: rest.2)
      | none => (rest.1, rest.2)

/-- The 64 characters of the standard base64 alphabet, in value order. -/
def base64Alphabet : List Char :=
  ['A','B','C','D','E','F','G','H','I','J','K','L','M','N','O','P',
   'Q','R','S','T','U','V','W','X','Y','Z',
   'a','b','c','d','e','f','g','h','i','j','k','l','m','n','o','p',
   'q','r','s','t','u','v','w','x','y','z',
   '0','1','2','3','4','5','6','7','8','9','+','/']

/-- Character of the base64 alphabet at a sextet value. -/
def b64Char (n : ℕ) : Char := base64Alphabet.getD n '='

/-- Sextet value of a base64 alphabet character. -/
def b64Val (c : Char) : ℕ := base64Alphabet.indexOf c

/-- Modelled from the spec: the base64 encoder inside createPcmBlob of
services/audioUtils, which is not under src.  Encodes a byte list in
three-byte groups into four base64 characters each, padding a final
one- or two-byte group with = characters. -/
def encode : List ℕ → List Char
  | [] => []
  | [b1] =>
      [b64Char (b1 / 4), b64Char (b1 % 4 * 16), '=', '=']
  | [b1, b2] =>
      [b64Char (b1 / 4), b64Char (b1 % 4 * 16 + b2 / 16),
       b64Char (b2 % 16 * 4), '=']
  | b1 :: b2 :: b3 :: bs =>
      b64Char (b1 / 4) :: b64Char (b1 % 4 * 16 + b2 / 16) ::
      b64Char (b2 % 16 * 4 + b3 / 64) :: b64Char (b3 % 64) ::
      encode bs

/-- Modelled from the spec: the base64 decoder named decode that
LiveCritic imports from services/audioUtils (line 58), whose
implementation is not under src.  Decodes four base64 characters into
the three bytes they carry, honouring = padding in the final group. -/
def decode : List Char → List ℕ
  | c1 :: c2 :: c3 :: c4 :: cs =>
      if c3 = '=' then
        [b64Val c1 * 4 + b64Val c2 / 16]
      else if c4 = '=' then
        [b64Val c1 * 4 + b64Val c2 / 16,
         b64Val c2 % 16 * 16 + b64Val c3 / 4]
      else
        (b64Val c1 * 4 + b64Val c2 / 16) ::
        (b64Val c2 % 16 * 16 + b64Val c3 / 4) ::
        (b64Val c3 % 4 * 64 + b64Val c4) ::
        decode cs
  | _ => []

/-- Modelled from the spec: quantization of one floating-point sample
in [-1, 1] to a signed 16-bit PCM value, as done sample-wise by
createPcmBlob of services/audioUtils (not under src). -/
def quantize (x : ℚ) : ℤ := round (x * 32767)

/-- Modelled from the spec: recovery of a floating-point sample from a
signed 16-bit PCM value, as done by the audio decoding path of
services/audioUtils (not under src). -/
def dequantize (n : ℤ) : ℚ := (n : ℚ) / 32767

/-- Two's-complement representation of a signed 16-bit value as an
unsigned 16-bit value. -/
def toU16 (n : ℤ) : ℕ := (n % 65536).toNat

/-- Signed reading of an unsigned 16-bit value. -/
def fromU16 (u : ℕ) : ℤ := if u < 32768 then (u : ℤ) else (u : ℤ) - 65536

/-- Little-endian byte pair of an unsigned 16-bit value. -/
def bytesOfU16 (u : ℕ) : List ℕ := [u % 256, u / 256]

/-- Modelled from the spec: the little-endian 16-bit PCM byte buffer
createPcmBlob builds from a sample sequence (services/audioUtils, not
under src): each sample quantized, represented in two's complement and
laid out low byte first. -/
def pcmBytes (samples : List ℚ) : List ℕ :=
  samples.flatMap fun x => bytesOfU16 (toU16 (quantize x))

/-- An encoded audio blob as it travels to or from the remote channel:
a base64 character payload and a mime type. -/
structure AudioBlob where
  data : List Char
  mimeType : String
deriving DecidableEq

/-- Modelled from the spec: createPcmBlob of services/audioUtils (not
under src), used by the capture path at line 167: quantizes the
samples to little-endian 16-bit PCM, base64-encodes the bytes and tags
the blob audio/pcm;rate=16000. -/
def createPcmBlob (samples : List ℚ) : AudioBlob :=
  { data := encode (pcmBytes samples), mimeType := "audio/pcm;rate=16000" }

/-- Modelled from the spec: the sample-recovery half of decodeAudioData
of services/audioUtils (not under src): reads consecutive little-endian
byte pairs as signed 16-bit values and rescales them to [-1, 1]. -/
def decodeAudioData : List ℕ → List ℚ
  | b0 :: b1 :: bs => dequantize (fromU16 (b0 + 256 * b1)) :: decodeAudioData bs
  | _ => []

/-- Decode an audio blob back to samples: base64 decode, then 16-bit
PCM decode. -/
def decodePcmBlob (b : AudioBlob) : List ℚ := decodeAudioData (decode b.data)

/-- One onaudioprocess callback (lines 165-172): encodes the captured
chunk with createPcmBlob and, when sessionPromiseRef is non-null,
attaches the send of the encoded frame to that promise; continuations
attached to one promise run in attachment order, so the send joins the
end of the outbound queue.  When the ref is null the chunk is
dropped. -/
def onAudioProcess (session : Option ℕ) (queue : List AudioBlob)
    (chunk : List ℚ) : List AudioBlob :=
  match session with
  | some _ => queue ++ [createPcmBlob chunk]
  | none => queue

/-- Run the capture pipeline over a sequence of chunks delivered by
successive onaudioprocess callbacks, returning the frames put on the
wire, in send order. -/
def captureRun (session : Option ℕ) (chunks : List (List ℚ)) : List AudioBlob :=
  chunks.foldl (onAudioProcess session) []

/-- A representative state of a live session: status live, active, the
three device refs and the session promise populated as by a successful
startSession followed by the onopen callback. -/
def liveState : CriticState :=
  { active := true, status := Status.live, volume := 0, isSpeaking := false,
    audioContext := some 10, sessionPromise := some 13, inputSource := some 11,
    processor := some 12, nextStartTime := 0 }

/-- C4: when startSession fails at the device-acquisition stage
(microphone permission denied after the output AudioContext was
created), the bridge does end in state error, but the catch block
releases nothing: the output AudioContext ref is still set and the
device ledger still shows the output context open, contradicting the
claim that every partially acquired resource is released on the error
path. -/
theorem startSession_error_leaves_output_ctx_open :
    (startSession ⟨true, false, false⟩ initialState).1.status = Status.error ∧
    (startSession ⟨true, false, false⟩ initialState).1.audioContext = some 10 ∧
    (startSession ⟨true, false, false⟩ initialState).2.outputCtxOpen = true ∧
    (startSession ⟨true, true, false⟩ initialState).1.status = Status.error ∧
    (startSession ⟨true, true, false⟩ initialState).2.micStreamOpen = true := by
  decide

/-- C5: after a successful startSession, running disconnect performs
only the processor detach, the source detach and the output-context
close; folding its release operations over the device ledger leaves
the microphone stream and the 16 kHz input AudioContext open, so
disconnect does not release all five resources named by the claim. -/
theorem disconnect_leaves_mic_and_input_open :
    (disconnect (startSession ⟨true, true, true⟩ initialState).1).1.status
      = Status.idle ∧
    (applyReleases (startSession ⟨true, true, true⟩ initialState).2
        (disconnect (startSession ⟨true, true, true⟩ initialState).1).2).outputCtxOpen
      = false ∧
    (applyReleases (startSession ⟨true, true, true⟩ initialState).2
        (disconnect (startSession ⟨true, true, true⟩ initialState).1).2).micStreamOpen
      = true ∧
    (applyReleases (startSession ⟨true, true, true⟩ initialState).2
        (disconnect (startSession ⟨true, true, true⟩ initialState).1).2).inputCtxOpen
      = true := by
  decide

/-- C6: from any state whose processor, input-source and
output-context refs are populated, calling disconnect twice is
idempotent: the second call changes nothing and performs no release
operation, the terminal state is idle, inactive, with the three device
refs null, and across the two calls each of the three release
operations the code performs happens exactly once. -/
theorem disconnect_idempotent (s : CriticState) (p i c : ℕ)
    (hp : s.processor = some p) (hi : s.inputSource = some i)
    (hc : s.audioContext = some c) :
    (disconnect (disconnect s).1).1 = (disconnect s).1 ∧
    (disconnect (disconnect s).1).2 = [] ∧
    (disconnect s).1.status = Status.idle ∧
    (disconnect s).1.active = false ∧
    (disconnect s).1.processor = none ∧
    (disconnect s).1.inputSource = none ∧
    (disconnect s).1.audioContext = none ∧
    ((disconnect s).2 ++ (disconnect (disconnect s).1).2).count
      ReleaseOp.procDisconnect = 1 ∧
    ((disconnect s).2 ++ (disconnect (disconnect s).1).2).count
      ReleaseOp.sourceDisconnect = 1 ∧
    ((disconnect s).2 ++ (disconnect (disconnect s).1).2).count
      ReleaseOp.outputCtxClose = 1 := by
  simp [disconnect, hp, hi, hc, List.count_cons]
  decide

/-- Witness for disconnect_idempotent at the concrete live state. -/
theorem disconnect_idempotent_witness :
    (disconnect (disconnect liveState).1).1 = (disconnect liveState).1 ∧
    (disconnect (disconnect liveState).1).2 = [] ∧
    (disconnect liveState).1.status = Status.idle ∧
    (disconnect liveState).1.active = false ∧
    (disconnect liveState).1.processor = none ∧
    (disconnect liveState).1.inputSource = none ∧
    (disconnect liveState).1.audioContext = none ∧
    ((disconnect liveState).2 ++ (disconnect (disconnect liveState).1).2).count
      ReleaseOp.procDisconnect = 1 ∧
    ((disconnect liveState).2 ++ (disconnect (disconnect liveState).1).2).count
      ReleaseOp.sourceDisconnect = 1 ∧
    ((disconnect liveState).2 ++ (disconnect (disconnect liveState).1).2).count
      ReleaseOp.outputCtxClose = 1 :=
  disconnect_idempotent liveState 12 11 10 rfl rfl rfl

/-- C10: disconnect never touches the remote session handle: the
sessionPromise ref is unchanged, no session-closing release operation
is emitted (nor any device-closing operation beyond the output
context), the playback cursor is untouched, and the only ref fields it
nulls are the processor, input-source and output-context ones. -/
theorem disconnect_preserves_session (s : CriticState) :
    (disconnect s).1.sessionPromise = s.sessionPromise ∧
    (disconnect s).1.nextStartTime = s.nextStartTime ∧
    ReleaseOp.sessionClose ∉ (disconnect s).2 ∧
    ReleaseOp.micTrackStop ∉ (disconnect s).2 ∧
    ReleaseOp.inputCtxClose ∉ (disconnect s).2 ∧
    (disconnect s).1.processor = none ∧
    (disconnect s).1.inputSource = none ∧
    (disconnect s).1.audioContext = none := by
  cases hp : s.processor <;> cases hi : s.inputSource <;>
    cases hc : s.audioContext <;>
    simp [disconnect, hp, hi, hc]

/-- C1: while the session is live (the output-context ref is set), the
onMessage handler schedules a decoded buffer at
max(nextStartTime, currentTime) and advances the cursor by the buffer
duration; and when a second buffer arrives back-to-back (its clock
reading not past the end of the first buffer) it is scheduled exactly
at the first start time plus the first duration. -/
theorem onMessage_schedules_back_to_back (s : CriticState) (c : ℕ)
    (n1 n2 d1 d2 : ℚ) (hc : s.audioContext = some c)
    (hb : n2 ≤ max s.nextStartTime n1 + d1) :
    (onMessage s n1 (DecodeResult.ok d1)).2 =
      some (c, max s.nextStartTime n1) ∧
    (onMessage s n1 (DecodeResult.ok d1)).1.nextStartTime =
      max s.nextStartTime n1 + d1 ∧
    (onMessage (onMessage s n1 (DecodeResult.ok d1)).1 n2
        (DecodeResult.ok d2)).2 =
      some (c, max s.nextStartTime n1 + d1) ∧
    (onMessage (onMessage s n1 (DecodeResult.ok d1)).1 n2
        (DecodeResult.ok d2)).1.nextStartTime =
      max s.nextStartTime n1 + d1 + d2 := by
  simp [onMessage, onMessageEntry, onMessageResume, hc, max_eq_left hb]

/-- Witness for onMessage_schedules_back_to_back: two buffers of
durations 2 s and 1.5 s arrive at clock readings 3 and 4 with the
cursor at 0; the first starts at max(0, 3) = 3, the second at
3 + 2 = 5. -/
theorem onMessage_schedules_back_to_back_witness :
    (onMessage liveState 3 (DecodeResult.ok 2)).2 = some (10, max 0 3) ∧
    (onMessage liveState 3 (DecodeResult.ok 2)).1.nextStartTime = max 0 3 + 2 ∧
    (onMessage (onMessage liveState 3 (DecodeResult.ok 2)).1 4
        (DecodeResult.ok (3/2))).2 = some (10, max 0 3 + 2) ∧
    (onMessage (onMessage liveState 3 (DecodeResult.ok 2)).1 4
        (DecodeResult.ok (3/2))).1.nextStartTime = max 0 3 + 2 + 3/2 :=
  onMessage_schedules_back_to_back liveState 10 3 4 2 (3/2) rfl (by norm_num [liveState])

/-- C3 counterexample: with the cursor at 0 and the audio clock at 5,
handling an inbound blob whose decode fails does change the
nextStartTime cursor (to 5), because the clamp at line 126 runs before
the try block around the decode. -/
theorem decode_error_moves_cursor :
    ¬ (onMessage liveState 5 DecodeResult.err).1.nextStartTime =
        liveState.nextStartTime := by
  simp [onMessage, onMessageEntry, onMessageResume, liveState]

/-- C3 (amended): a failed decode is non-fatal and schedules nothing,
leaves status, active flag, every resource ref, the speaking flag and
the volume unchanged, and its only effect on the cursor is the
pre-decode clamp to max(nextStartTime, currentTime); when the handler
bailed out because the context ref was null even that is a no-op. -/
theorem decode_error_frame (s : CriticState) (now : ℚ) :
    (onMessage s now DecodeResult.err).2 = none ∧
    (onMessage s now DecodeResult.err).1.status = s.status ∧
    (onMessage s now DecodeResult.err).1.active = s.active ∧
    (onMessage s now DecodeResult.err).1.audioContext = s.audioContext ∧
    (onMessage s now DecodeResult.err).1.sessionPromise = s.sessionPromise ∧
    (onMessage s now DecodeResult.err).1.inputSource = s.inputSource ∧
    (onMessage s now DecodeResult.err).1.processor = s.processor ∧
    (onMessage s now DecodeResult.err).1.isSpeaking = s.isSpeaking ∧
    (onMessage s now DecodeResult.err).1.volume = s.volume ∧
    (onMessage s now DecodeResult.err).1.nextStartTime =
      (match s.audioContext with
       | none => s.nextStartTime
       | some _ => max s.nextStartTime now) := by
  cases hc : s.audioContext <;>
    simp [onMessage, onMessageEntry, onMessageResume, hc]

/-- C7: a decode in flight when disconnect tears the session down is
not discarded.  Concretely: the handler enters at clock 0 and captures
context 10, disconnect then completes teardown (status idle, context
ref null), yet when the decode resolves with a 2 s buffer the resume
half still schedules playback on the stale context at time 0 and
advances the cursor from 0 to 2 — there is no liveness re-check after
the await. -/
theorem stale_decode_mutates_after_teardown :
    (onMessageEntry liveState 0).2 = some 10 ∧
    (disconnect (onMessageEntry liveState 0).1).1.status = Status.idle ∧
    (disconnect (onMessageEntry liveState 0).1).1.audioContext = none ∧
    (onMessageResume 10 (DecodeResult.ok 2)
        (disconnect (onMessageEntry liveState 0).1).1).2 = some (10, 0) ∧
    (onMessageResume 10 (DecodeResult.ok 2)
        (disconnect (onMessageEntry liveState 0).1).1).1.nextStartTime = 2 ∧
    ¬ (onMessageResume 10 (DecodeResult.ok 2)
        (disconnect (onMessageEntry liveState 0).1).1).1.nextStartTime =
      (disconnect (onMessageEntry liveState 0).1).1.nextStartTime := by
  simp [onMessageEntry, onMessageResume, disconnect, liveState]

/-- Closed form of one successful onMessage step while the context ref
holds c: the buffer is scheduled at max(cursor, now) and the cursor
moves to that start plus the duration. -/
theorem onMessage_ok_eq (s : CriticState) (c : ℕ) (n d : ℚ)
    (hc : s.audioContext = some c) :
    onMessage s n (DecodeResult.ok d) =
      ({ s with nextStartTime := max s.nextStartTime n + d,
                isSpeaking := true, volume := 4/5 },
       some (c, max s.nextStartTime n)) := by
  simp [onMessage, onMessageEntry, onMessageResume, hc]

/-- Unfolding of runSchedule on one event while the context ref holds
c. -/
theorem runSchedule_cons (s : CriticState) (c : ℕ) (n d : ℚ)
    (evs : List (ℚ × ℚ)) (hc : s.audioContext = some c) :
    runSchedule s ((n, d) :: evs) =
      ((runSchedule { s with nextStartTime := max s.nextStartTime n + d,
                             isSpeaking := true, volume := 4/5 } evs).1,
       { now := n, dur := d, start := max s.nextStartTime n,
         cursorAfter := max s.nextStartTime n + d } ::
       (runSchedule { s with nextStartTime := max s.nextStartTime n + d,
                             isSpeaking := true, volume := 4/5 } evs).2) := by
  simp [runSchedule, onMessage_ok_eq s c n d hc]

/-- Per-entry facts about a schedule trace: every start time is at
least the cursor the run began with and at least the clock reading of
its own event, the cursor after each step is exactly that start plus
the duration, and durations are nonnegative. -/
theorem runSchedule_entry_bounds :
    ∀ (evs : List (ℚ × ℚ)) (s : CriticState) (c : ℕ),
      s.audioContext = some c → (∀ e ∈ evs, 0 ≤ e.2) →
      ∀ e ∈ (runSchedule s evs).2,
        s.nextStartTime ≤ e.start ∧ e.now ≤ e.start ∧
        e.cursorAfter = e.start + e.dur ∧ 0 ≤ e.dur
  | [], _, _, _, _ => by simp [runSchedule]
  | (n, d) :: evs, s, c, hc, hd => by
    rw [runSchedule_cons s c n d evs hc]
    have hd0 : 0 ≤ d := hd (n, d) (List.mem_cons_self _ _)
    intro e he
    rcases List.mem_cons.mp he with h | h
    · subst h
      exact ⟨le_max_left _ _, le_max_right _ _, rfl, hd0⟩
    · have ih := runSchedule_entry_bounds evs
        { s with nextStartTime := max s.nextStartTime n + d,
                 isSpeaking := true, volume := 4/5 } c
        (by simpa using hc) (fun e' he' => hd e' (List.mem_cons_of_mem _ he'))
        e h
      refine ⟨le_trans ?_ ih.1, ih.2.1, ih.2.2.1, ih.2.2.2⟩
      calc s.nextStartTime ≤ max s.nextStartTime n := le_max_left _ _
        _ ≤ max s.nextStartTime n + d := le_add_of_nonneg_right hd0

/-- A schedule trace has the no-overlap chain property: each entry
starts no earlier than the previous entry's start plus its duration. -/
theorem runSchedule_chain :
    ∀ (evs : List (ℚ × ℚ)) (s : CriticState) (c : ℕ),
      s.audioContext = some c → (∀ e ∈ evs, 0 ≤ e.2) →
      List.Chain' (fun a b => a.start + a.dur ≤ b.start)
        (runSchedule s evs).2
  | [], _, _, _, _ => by simp [runSchedule]
  | (n, d) :: evs, s, c, hc, hd => by
    rw [runSchedule_cons s c n d evs hc]
    have hc' : ({ s with nextStartTime := max s.nextStartTime n + d,
                         isSpeaking := true,
                         volume := 4/5 } : CriticState).audioContext = some c := by
      simpa using hc
    have hd' : ∀ e ∈ evs, 0 ≤ e.2 :=
      fun e' he' => hd e' (List.mem_cons_of_mem _ he')
    refine List.chain'_cons'.mpr ⟨?_, runSchedule_chain evs _ c hc' hd'⟩
    intro y hy
    have := (runSchedule_entry_bounds evs _ c hc' hd' y
      (List.mem_of_mem_head? hy)).1
    simpa using this

/-- Nonnegative durations turn the no-overlap chain into monotonicity
of start times. -/
theorem chain_mono_of_no_overlap :
    ∀ l : List SchedEntry, (∀ e ∈ l, 0 ≤ e.dur) →
      List.Chain' (fun a b => a.start + a.dur ≤ b.start) l →
      List.Chain' (fun a b => a.start ≤ b.start) l
  | [], _, _ => List.chain'_nil
  | a :: l, hd, hch => by
    rcases List.chain'_cons'.mp hch with ⟨hhead, htail⟩
    refine List.chain'_cons'.mpr ⟨?_, chain_mono_of_no_overlap l
      (fun e he => hd e (List.mem_cons_of_mem _ he)) htail⟩
    intro y hy
    have h0 : 0 ≤ a.dur := hd a (List.mem_cons_self _ _)
    have := hhead y hy
    linarith

/-- C2: over any sequence of successfully decoded buffers handled
while the session is live, every computed start time is at least the
audio-clock reading sampled when that buffer was scheduled, the cursor
after each step equals that buffer's start plus its duration (the end
of the buffer), consecutive buffers never overlap, and start times are
non-decreasing. -/
theorem schedule_invariants (s : CriticState) (c : ℕ)
    (evs : List (ℚ × ℚ)) (hc : s.audioContext = some c)
    (hd : ∀ e ∈ evs, 0 ≤ e.2) :
    (∀ e ∈ (runSchedule s evs).2,
      e.now ≤ e.start ∧ e.cursorAfter = e.start + e.dur) ∧
    List.Chain' (fun a b => a.start + a.dur ≤ b.start)
      (runSchedule s evs).2 ∧
    List.Chain' (fun a b => a.start ≤ b.start) (runSchedule s evs).2 := by
  refine ⟨fun e he => ⟨(runSchedule_entry_bounds evs s c hc hd e he).2.1,
      (runSchedule_entry_bounds evs s c hc hd e he).2.2.1⟩,
    runSchedule_chain evs s c hc hd, ?_⟩
  exact chain_mono_of_no_overlap _
    (fun e he => (runSchedule_entry_bounds evs s c hc hd e he).2.2.2)
    (runSchedule_chain evs s c hc hd)

/-- Witness for schedule_invariants: two buffers of durations 2 s and
1.5 s arriving at clock readings 3 and 4 in the live state. -/
theorem schedule_invariants_witness :
    (∀ e ∈ (runSchedule liveState [(3, 2), (4, 3/2)]).2,
      e.now ≤ e.start ∧ e.cursorAfter = e.start + e.dur) ∧
    List.Chain' (fun a b => a.start + a.dur ≤ b.start)
      (runSchedule liveState [(3, 2), (4, 3/2)]).2 ∧
    List.Chain' (fun a b => a.start ≤ b.start)
      (runSchedule liveState [(3, 2), (4, 3/2)]).2 :=
  schedule_invariants liveState 10 [(3, 2), (4, 3/2)] rfl
    (by rintro e he; fin_cases he <;> norm_num)

/-- Folding the capture callback over chunks appends their encoded
frames, in order, to whatever queue was already pending. -/
theorem captureRun_foldl (sess : ℕ) :
    ∀ (chunks : List (List ℚ)) (acc : List AudioBlob),
      chunks.foldl (onAudioProcess (some sess)) acc =
        acc ++ chunks.map createPcmBlob
  | [], acc => by simp
  | chunk :: chunks, acc => by
    simp [List.foldl_cons, onAudioProcess,
      captureRun_foldl sess chunks (acc ++ [createPcmBlob chunk])]

/-- C8: while the session promise is set, the frames put on the wire
by a sequence of capture callbacks are exactly the per-chunk encodings
in capture order: the outbound channel is FIFO, with no reordering. -/
theorem outbound_fifo (sess : ℕ) (chunks : List (List ℚ)) :
    captureRun (some sess) chunks = chunks.map createPcmBlob := by
  simpa [captureRun] using captureRun_foldl sess chunks []

/-- The base64 alphabet mapping is injective on sextet values: reading
back the character of any value below 64 recovers the value. -/
theorem b64Val_b64Char : ∀ n, n < 64 → b64Val (b64Char n) = n := by
  decide

/-- No alphabet character of a sextet value is the padding
character. -/
theorem b64Char_ne_pad : ∀ n, n < 64 → b64Char n ≠ '=' := by
  decide

/-- Base64 round-trip: decoding an encoding of any byte list recovers
the byte list. -/
theorem decode_encode :
    ∀ bs : List ℕ, (∀ b ∈ bs, b < 256) → decode (encode bs) = bs
  | [], _ => rfl
  | [b1], h => by
    have h1 : b1 < 256 := h b1 (by simp)
    have e1 := b64Val_b64Char (b1 / 4) (by omega)
    have e2 := b64Val_b64Char (b1 % 4 * 16) (by omega)
    simp [encode, decode, e1, e2]
    omega
  | [b1, b2], h => by
    have h1 : b1 < 256 := h b1 (by simp)
    have h2 : b2 < 256 := h b2 (by simp)
    have e1 := b64Val_b64Char (b1 / 4) (by omega)
    have e2 := b64Val_b64Char (b1 % 4 * 16 + b2 / 16) (by omega)
    have e3 := b64Val_b64Char (b2 % 16 * 4) (by omega)
    have ne3 := b64Char_ne_pad (b2 % 16 * 4) (by omega)
    simp [encode, decode, e1, e2, e3, ne3]
    constructor <;> omega
  | b1 :: b2 :: b3 :: bs, h => by
    have h1 : b1 < 256 := h b1 (by simp)
    have h2 : b2 < 256 := h b2 (by simp)
    have h3 : b3 < 256 := h b3 (by simp)
    have e1 := b64Val_b64Char (b1 / 4) (by omega)
    have e2 := b64Val_b64Char (b1 % 4 * 16 + b2 / 16) (by omega)
    have e3 := b64Val_b64Char (b2 % 16 * 4 + b3 / 64) (by omega)
    have e4 := b64Val_b64Char (b3 % 64) (by omega)
    have ne3 := b64Char_ne_pad (b2 % 16 * 4 + b3 / 64) (by omega)
    have ne4 := b64Char_ne_pad (b3 % 64) (by omega)
    have ih := decode_encode bs (fun b hb => h b (by simp [hb]))
    simp [encode, decode, e1, e2, e3, e4, ne3, ne4, ih]
    refine ⟨by omega, by omega, by omega⟩

/-- Quantization keeps samples in [-1, 1] inside the signed 16-bit
range. -/
theorem quantize_bounds (x : ℚ) (h1 : -1 ≤ x) (h2 : x ≤ 1) :
    -32768 ≤ quantize x ∧ quantize x ≤ 32767 := by
  have hb := abs_sub_round (x * 32767)
  rw [abs_le] at hb
  have h3 : (-32768 : ℚ) < ((round (x * 32767) : ℤ) : ℚ) := by linarith
  have h4 : ((round (x * 32767) : ℤ) : ℚ) < 32768 := by linarith
  have h3' : (-32768 : ℤ) < round (x * 32767) := by exact_mod_cast h3
  have h4' : round (x * 32767) < 32768 := by exact_mod_cast h4
  unfold quantize
  omega

/-- Quantizing and dequantizing a sample in [-1, 1] loses at most
1/32768. -/
theorem dequantize_quantize (x : ℚ) (_h1 : -1 ≤ x) (_h2 : x ≤ 1) :
    |dequantize (quantize x) - x| ≤ 1/32768 := by
  have hb := abs_sub_round (x * 32767)
  rw [abs_le] at hb
  unfold dequantize quantize
  rw [abs_le]
  constructor <;> [linarith; linarith]

/-- Two's-complement round trip on the signed 16-bit range. -/
theorem fromU16_toU16 (n : ℤ) (h1 : -32768 ≤ n) (h2 : n ≤ 32767) :
    fromU16 (toU16 n) = n := by
  unfold fromU16 toU16
  split <;> omega

/-- Unsigned 16-bit values fit in two bytes. -/
theorem toU16_lt (n : ℤ) : toU16 n < 65536 := by
  unfold toU16
  omega

/-- Unfolding of the PCM byte buffer on one sample. -/
theorem pcmBytes_cons (x : ℚ) (xs : List ℚ) :
    pcmBytes (x :: xs) = bytesOfU16 (toU16 (quantize x)) ++ pcmBytes xs := by
  simp [pcmBytes]

/-- Every byte the PCM encoder emits is below 256. -/
theorem pcmBytes_lt :
    ∀ samples : List ℚ, ∀ b ∈ pcmBytes samples, b < 256
  | [] => by simp [pcmBytes]
  | x :: xs => by
    intro b hb
    rw [pcmBytes_cons] at hb
    rcases List.mem_append.mp hb with h | h
    · have hu := toU16_lt (quantize x)
      simp [bytesOfU16] at h
      rcases h with h | h <;> omega
    · exact pcmBytes_lt xs b h

/-- The PCM byte buffer holds two bytes per sample. -/
theorem pcmBytes_length :
    ∀ samples : List ℚ, (pcmBytes samples).length = 2 * samples.length
  | [] => rfl
  | x :: xs => by
    simp [pcmBytes_cons, bytesOfU16, pcmBytes_length xs]
    omega

/-- Decoding the raw PCM bytes of a sample sequence in [-1, 1]
recovers each sample to within 1/32768. -/
theorem decodeAudioData_pcmBytes :
    ∀ samples : List ℚ, (∀ x ∈ samples, -1 ≤ x ∧ x ≤ 1) →
      List.Forall₂ (fun y x => |y - x| ≤ 1/32768)
        (decodeAudioData (pcmBytes samples)) samples
  | [], _ => by
    simp [pcmBytes, decodeAudioData]
  | x :: xs, h => by
    have hx := h x (by simp)
    rw [pcmBytes_cons]
    have hsplit : bytesOfU16 (toU16 (quantize x)) ++ pcmBytes xs =
        toU16 (quantize x) % 256 :: toU16 (quantize x) / 256 :: pcmBytes xs := by
      simp [bytesOfU16]
    rw [hsplit]
    simp only [decodeAudioData]
    refine List.Forall₂.cons ?_
      (decodeAudioData_pcmBytes xs (fun y hy => h y (by simp [hy])))
    have hq := quantize_bounds x hx.1 hx.2
    have hm : toU16 (quantize x) % 256 + 256 * (toU16 (quantize x) / 256) =
        toU16 (quantize x) := by omega
    rw [hm, fromU16_toU16 _ hq.1 hq.2]
    exact dequantize_quantize x hx.1 hx.2

/-- C9: for any sample sequence with values in [-1, 1], createPcmBlob
produces a little-endian 16-bit PCM buffer of two bytes per sample,
base64-encoded and tagged audio/pcm;rate=16000, and decoding that blob
recovers every sample to within the quantization tolerance 1/32768. -/
theorem createPcmBlob_roundtrip (samples : List ℚ)
    (h : ∀ x ∈ samples, -1 ≤ x ∧ x ≤ 1) :
    (createPcmBlob samples).mimeType = "audio/pcm;rate=16000" ∧
    (pcmBytes samples).length = 2 * samples.length ∧
    List.Forall₂ (fun y x => |y - x| ≤ 1/32768)
      (decodePcmBlob (createPcmBlob samples)) samples := by
  refine ⟨rfl, pcmBytes_length samples, ?_⟩
  have hb : decode (encode (pcmBytes samples)) = pcmBytes samples :=
    decode_encode (pcmBytes samples) (pcmBytes_lt samples)
  simpa [decodePcmBlob, createPcmBlob, hb]
    using decodeAudioData_pcmBytes samples h

/-- Witness for createPcmBlob_roundtrip at the sample sequence
0, 0.5, -0.5, 1, -1. -/
theorem createPcmBlob_roundtrip_witness :
    (createPcmBlob [0, 1/2, -1/2, 1, -1]).mimeType = "audio/pcm;rate=16000" ∧
    (pcmBytes [0, 1/2, -1/2, 1, -1]).length =
      2 * ([0, 1/2, -1/2, 1, -1] : List ℚ).length ∧
    List.Forall₂ (fun y x => |y - x| ≤ 1/32768)
      (decodePcmBlob (createPcmBlob [0, 1/2, -1/2, 1, -1]))
      [0, 1/2, -1/2, 1, -1] :=
  createPcmBlob_roundtrip [0, 1/2, -1/2, 1, -1]
    (by rintro x hx; fin_cases hx <;> norm_num)
